import Mathlib

/-!
Verification development for the SpotiFLAC download core.

The Go source is shallowly embedded: pure helpers from the standard
library (strings, path/filepath) are re-implemented over lists of
characters so that everything computes inside the kernel; effectful
collaborators (HTTP, SQLite, the per-service downloaders, the queue
store, the file system) enter as explicit environment records, and each
embedded operation additionally returns the ordered list of effects it
issued, so that claims about which calls happen (and in which order)
become statements about that trace.
-/

namespace SpotiFLAC

/-! ## Go string and path primitives, re-implemented over List Char -/

/-- Model of the test whether the list s begins with the list pat. -/
def listStartsWith : List Char → List Char → Bool
  | _, [] => true
  | [], _ :: _ => false
  | c :: cs, d :: ds => c = d && listStartsWith cs ds

/-- Index of the first occurrence of pat inside s (Go strings.Index). -/
def findSub : List Char → List Char → Option Nat
  | [], pat => if pat = [] then some 0 else none
  | s@(_ :: cs), pat =>
    if listStartsWith s pat then some 0
    else (findSub cs pat).map (· + 1)

/-- Model of Go strings.Contains. -/
def goContains (s sub : String) : Bool :=
  (findSub s.data sub.data).isSome

/-- Model of Go strings.HasPrefix. -/
def strStartsWith (s pat : String) : Bool :=
  listStartsWith s.data pat.data

/-- Model of Go strings.HasSuffix. -/
def strEndsWith (s pat : String) : Bool :=
  listStartsWith s.data.reverse pat.data.reverse

/-- Model of Go strings.TrimSuffix. -/
def trimSuffixStr (s pat : String) : String :=
  if strEndsWith s pat then ⟨s.data.take (s.data.length - pat.data.length)⟩ else s

/-- Model of Go strings.SplitN with n = 2: split at the first occurrence
of the separator; a single-element list when the separator is absent. -/
def goSplitN2 (s sep : String) : List String :=
  match findSub s.data sep.data with
  | none => [s]
  | some i => [⟨s.data.take i⟩, ⟨s.data.drop (i + sep.data.length)⟩]

/-- Fuelled worker for goSplit; fuel bounds the number of cuts. -/
def splitAllFuel (pat : List Char) : Nat → List Char → List (List Char)
  | 0, s => [s]
  | Nat.succ n, s =>
    match findSub s pat with
    | none => [s]
    | some i => s.take i :: splitAllFuel pat n (s.drop (i + pat.length))

/-- Model of Go strings.Split (all occurrences of a non-empty separator). -/
def goSplit (s sep : String) : List String :=
  (splitAllFuel sep.data (s.data.length + 1) s.data).map (fun l => ⟨l⟩)

/-- ASCII whitespace test; Go strings.TrimSpace trims unicode space, the
inputs manipulated here only carry ASCII blanks. -/
def isSpaceChar (c : Char) : Bool :=
  c = ' ' || c = '\t' || c = '\n' || c = '\r'

/-- Model of Go strings.TrimSpace. -/
def goTrimSpace (s : String) : String :=
  ⟨((s.data.dropWhile isSpaceChar).reverse.dropWhile isSpaceChar).reverse⟩

/-- Model of Go strings.Replace with n = 1. -/
def replaceFirst (s pat sub : String) : String :=
  match findSub s.data pat.data with
  | none => s
  | some i => ⟨s.data.take i ++ sub.data ++ s.data.drop (i + pat.data.length)⟩

/-- Worker for goExt: walks the reversed character list; acc collects the
characters that follow the final dot, in original order. -/
def goExtAux : List Char → List Char → List Char
  | [], _ => []
  | c :: rest, acc =>
    if c = '/' || c = '\\' then []
    else if c = '.' then '.' :: acc
    else goExtAux rest (c :: acc)

/-- Model of Go filepath.Ext: the suffix beginning at the final dot of the
final path element, empty when that element has no dot. -/
def goExt (s : String) : String :=
  ⟨goExtAux s.data.reverse []⟩

/-- Model of Go filepath.Base restricted to file paths (the text after the
last path separator). -/
def goBase (s : String) : String :=
  ⟨(s.data.reverse.takeWhile (fun c => c ≠ '/' && c ≠ '\\')).reverse⟩

/-- ASCII lowering, the model of Go strings.ToLower on extension text. -/
def lowerStr (s : String) : String :=
  ⟨s.data.map Char.toLower⟩

/-- Model of Go filepath.Join for one directory and one file name. -/
def joinPath (dir file : String) : String :=
  dir ++ "/" ++ file

/-- Join a list of strings with a separator between elements. -/
def joinWith (sep : String) : List String → String
  | [] => ""
  | [s] => s
  | s :: rest => s ++ sep ++ joinWith sep rest

/-! ## Track metadata and the filename-parsing fallback (VerifyLibrary worker) -/

/-- The Metadata record filled by ExtractMetadataFromFile; the Go struct
also carries a track number that none of the verified paths consult. -/
structure Metadata where
  title : String
  artist : String
  album : String
  albumArtist : String
deriving DecidableEq, Repr

/-- Embedding of extractMetadataFromM4A: the M4A reader ignores embedded
tags and parses the base file name, splitting on every occurrence of
" - " and reading the first part as the artist, the second as the title. -/
def extractMetadataFromM4A (filePath : String) : Metadata :=
  let filename := goBase filePath
  let nameWithoutExt := trimSuffixStr filename (goExt filename)
  match goSplit nameWithoutExt " - " with
  | q0 :: q1 :: _ =>
    { title := goTrimSpace q1, artist := goTrimSpace q0, album := "", albumArtist := "" }
  | _ => { title := nameWithoutExt, artist := "", album := "", albumArtist := "" }

/-- The base name of the audio file without its extension, as computed by
the VerifyLibrary workers before filename parsing. -/
def baseNameNoExt (p : String) : String :=
  let b := goBase p
  trimSuffixStr b (goExt b)

/-- Embedding of the filename-parsing fallback the VerifyLibrary workers
run after ExtractMetadataFromFile: only entered when the tag title or the
tag artist is empty; the name is cut at the first " - ", the part before
the separator fills an empty title, the part after fills an empty artist,
and an empty title finally falls back to the whole base name.  When
goContains holds, goSplitN2 always returns exactly two parts, matching the
length check in the source. -/
def applyFilenameFallback (m : Metadata) (filePath : String) : Metadata :=
  if m.title = "" ∨ m.artist = "" then
    let filename := baseNameNoExt filePath
    let m1 :=
      if goContains filename " - " then
        match goSplitN2 filename " - " with
        | [p0, p1] =>
          let ma := if m.title = "" then { m with title := goTrimSpace p0 } else m
          if ma.artist = "" then { ma with artist := goTrimSpace p1 } else ma
        | _ => m
      else m
    if m1.title = "" then { m1 with title := filename } else m1
  else m

/-! ## Cover resolution chain inside the VerifyLibrary repair worker -/

/-- The sources the repair worker can consult, in source order. -/
inductive CoverSource where
  | dbAlbum
  | dbTrack
  | itunes
  | deezer
  | spotify
  | musicbrainz
deriving DecidableEq, Repr

/-- The fixed priority list the worker walks. -/
def coverPriority : List CoverSource :=
  [.dbAlbum, .dbTrack, .itunes, .deezer, .spotify, .musicbrainz]

/-- Position of a source in the priority list. -/
def priorityIdx : CoverSource → Nat
  | .dbAlbum => 0
  | .dbTrack => 1
  | .itunes => 2
  | .deezer => 3
  | .spotify => 4
  | .musicbrainz => 5

/-- Results of the cover lookup collaborators.  Every Go implementation
returns the empty string whenever it also returns an error, and the
worker branches only on emptiness of the returned URL, so the URL alone
drives control flow and the environment records just the URL. -/
structure CoverEnv where
  getAlbumCoverFromDatabase : String → String → String
  getCoverByTrackFromDatabase : String → String → String → String
  searchITunesForCover : String → String → String
  searchDeezerForCover : String → String → String
  searchSpotifyForCover : String → String → String → String
  searchMusicBrainzForCover : String → String → String

/-- The query string built for the Spotify cover search. -/
def spotifySearchQuery (m : Metadata) : String :=
  "track:" ++ m.title ++ " artist:" ++ m.artist

/-- The URL each source would yield for this request. -/
def yieldOf (env : CoverEnv) (dbPath : String) (m : Metadata) : CoverSource → String
  | .dbAlbum => env.getAlbumCoverFromDatabase dbPath m.album
  | .dbTrack => env.getCoverByTrackFromDatabase dbPath m.title m.artist
  | .itunes => env.searchITunesForCover m.title m.artist
  | .deezer => env.searchDeezerForCover m.title m.artist
  | .spotify => env.searchSpotifyForCover (spotifySearchQuery m) m.title m.artist
  | .musicbrainz => env.searchMusicBrainzForCover m.title m.artist

/-- One guarded lookup of the resolution sequence: the worker consults a
source only when the cover URL is still empty and the extra guard of the
step holds, and then records the invocation.  This is the common shape
of every if block in the source loop. -/
def coverStep (g : Prop) [Decidable g] (url : String) (src : CoverSource)
    (acc : String × List CoverSource) : String × List CoverSource :=
  if acc.1 = "" ∧ g then (url, acc.2 ++ [src]) else acc

/-- Embedding of the cover-URL resolution sequence of the repair worker
in VerifyLibrary: database by album, database by track and artist,
iTunes, Deezer, Spotify, MusicBrainz, each step guarded by the URL still
being empty (the two database steps also by their argument guards; for
the first step the emptiness test is vacuous because the accumulator
starts with the freshly declared empty coverURL).  Returns the final URL
together with the list of sources invoked. -/
def resolveCoverURL (env : CoverEnv) (dbPath : String) (m : Metadata) :
    String × List CoverSource :=
  (("", []) : String × List CoverSource)
    |> coverStep (dbPath ≠ "" ∧ m.album ≠ "") (yieldOf env dbPath m .dbAlbum) .dbAlbum
    |> coverStep (dbPath ≠ "" ∧ m.title ≠ "" ∧ m.artist ≠ "")
        (yieldOf env dbPath m .dbTrack) .dbTrack
    |> coverStep True (yieldOf env dbPath m .itunes) .itunes
    |> coverStep True (yieldOf env dbPath m .deezer) .deezer
    |> coverStep True (yieldOf env dbPath m .spotify) .spotify
    |> coverStep True (yieldOf env dbPath m .musicbrainz) .musicbrainz

/-- Invariant of the resolution walk: invoked sources are strictly
ordered by priority below the bound, and a non-empty yield of an invoked
source is the result and ends the walk. -/
def CoverInv (env : CoverEnv) (dbPath : String) (m : Metadata) (b : Nat)
    (r : String × List CoverSource) : Prop :=
  List.Pairwise (fun a c => priorityIdx a < priorityIdx c) r.2 ∧
  (∀ s ∈ r.2, priorityIdx s < b) ∧
  (∀ s ∈ r.2, yieldOf env dbPath m s ≠ "" →
    r.1 = yieldOf env dbPath m s ∧ ∀ t ∈ r.2, priorityIdx t ≤ priorityIdx s)

/-- Where the repair worker writes a resolved cover: next to the audio
file, same base name, extension .jpg. -/
def coverDownloadPath (audioPath : String) : String :=
  trimSuffixStr audioPath (goExt audioPath) ++ ".jpg"

/-- The download action the worker performs after resolution: none when
no source yielded a URL (the track records an error), otherwise the pair
of the resolved URL and the sibling target path. -/
def repairCoverAction (env : CoverEnv) (dbPath : String) (m : Metadata)
    (audioPath : String) : Option (String × String) :=
  let url := (resolveCoverURL env dbPath m).1
  if url = "" then none else some (url, coverDownloadPath audioPath)

/-! ## The VerifyLibrary directory scan -/

/-- One entry delivered by the recursive directory walk. -/
structure FSEntry where
  path : String
  isDir : Bool
deriving DecidableEq, Repr

/-- The extension filter of the scan: lower-cased extension equal to
.mp3, .flac or .m4a. -/
def isAudioPath (p : String) : Bool :=
  lowerStr (goExt p) = ".mp3" || lowerStr (goExt p) = ".flac" || lowerStr (goExt p) = ".m4a"

/-- The audio files collected by the walk, in walk order. -/
def walkAudioFiles (fs : List FSEntry) : List String :=
  (fs.filter (fun e => !e.isDir && isAudioPath e.path)).map (fun e => e.path)

/-- Per-track verification record (the fields the scan fills). -/
structure TrackVerificationResult where
  filePath : String
  trackName : String
  hasCover : Bool
  hasLyrics : Bool
  coverPath : String
  lyricsPath : String
  missingCover : Bool
  missingLyrics : Bool
deriving DecidableEq, Repr

/-- Embedding of the per-file checks of VerifyLibrary: sibling cover
(.jpg preferred over .png) and sibling lyrics (.lrc preferred over .txt),
each only when the corresponding flag is set; statOK tells whether a path
exists on disk. -/
def verifyTrack (statOK : String → Bool) (checkCovers checkLyrics : Bool)
    (audioPath : String) : TrackVerificationResult :=
  let base := trimSuffixStr audioPath (goExt audioPath)
  let r0 : TrackVerificationResult :=
    { filePath := audioPath, trackName := goBase audioPath
      hasCover := false, hasLyrics := false, coverPath := "", lyricsPath := ""
      missingCover := false, missingLyrics := false }
  let r1 :=
    if checkCovers then
      let coverPath :=
        if statOK (base ++ ".jpg") then base ++ ".jpg"
        else if statOK (base ++ ".png") then base ++ ".png"
        else ""
      if coverPath ≠ "" then { r0 with hasCover := true, coverPath := coverPath }
      else { r0 with missingCover := true }
    else r0
  if checkLyrics then
    let lyricsPath :=
      if statOK (base ++ ".lrc") then base ++ ".lrc"
      else if statOK (base ++ ".txt") then base ++ ".txt"
      else ""
    if lyricsPath ≠ "" then { r1 with hasLyrics := true, lyricsPath := lyricsPath }
    else { r1 with missingLyrics := true }
  else r1

/-- The aggregate response of the scan phase. -/
structure LibResponse where
  totalTracks : Nat
  tracksWithCover : Nat
  tracksWithLyrics : Nat
  missingCovers : Nat
  missingLyrics : Nat
  tracks : List TrackVerificationResult
deriving DecidableEq, Repr

/-- One loop iteration of the scan: verify the file and bump the
counters exactly as the source increments them. -/
def scanStep (statOK : String → Bool) (cc cl : Bool)
    (resp : LibResponse) (p : String) : LibResponse :=
  let t := verifyTrack statOK cc cl p
  { resp with
    tracksWithCover := resp.tracksWithCover + (if t.hasCover then 1 else 0)
    missingCovers := resp.missingCovers + (if t.missingCover then 1 else 0)
    tracksWithLyrics := resp.tracksWithLyrics + (if t.hasLyrics then 1 else 0)
    missingLyrics := resp.missingLyrics + (if t.missingLyrics then 1 else 0)
    tracks := resp.tracks ++ [t] }

/-- Embedding of the scan phase of VerifyLibrary: collect audio files,
set TotalTracks to their count, then run the per-file loop. -/
def VerifyLibraryScan (fs : List FSEntry) (statOK : String → Bool)
    (cc cl : Bool) : LibResponse :=
  let audio := walkAudioFiles fs
  let r0 : LibResponse :=
    { totalTracks := audio.length, tracksWithCover := 0, tracksWithLyrics := 0
      missingCovers := 0, missingLyrics := 0, tracks := [] }
  audio.foldl (scanStep statOK cc cl) r0

/-! ## cover_sources.go: the three external cover searches with their
HTTP effect traces -/

/-- Observable effects of a cover search. -/
inductive HttpEffect where
  | sleep (ms : Nat)
  | httpGet (url : String)
  | httpHead (url : String)
deriving DecidableEq, Repr

/-- Parsed shape of one iTunes result. -/
structure ITunesResult where
  trackName : String
  artistName : String
  collectionName : String
  artworkUrl100 : String
deriving DecidableEq, Repr

/-- Parsed shape of the iTunes search response. -/
structure ITunesSearchResponse where
  resultCount : Nat
  results : List ITunesResult
deriving DecidableEq, Repr

/-- Parsed shape of one Deezer hit (only the album cover matters). -/
structure DeezerItem where
  title : String
  artistName : String
  albumTitle : String
  albumCoverXL : String
deriving DecidableEq, Repr

/-- Parsed shape of the Deezer search response. -/
structure DeezerSearchResponse where
  data : List DeezerItem
deriving DecidableEq, Repr

/-- Parsed shape of one MusicBrainz release. -/
structure MBRelease where
  id : String
  title : String
deriving DecidableEq, Repr

/-- Parsed shape of one MusicBrainz recording. -/
structure MBRecording where
  id : String
  title : String
  releases : List MBRelease
deriving DecidableEq, Repr

/-- Parsed shape of the MusicBrainz search response. -/
structure MusicBrainzSearchResponse where
  recordings : List MBRecording
deriving DecidableEq, Repr

/-- External collaborators of the cover searches: URL escaping, the HTTP
client (method and URL to status and body, or a transport error folding
in body-read failures), and the three JSON decoders. -/
structure CoverNetEnv where
  queryEscape : String → String
  httpDo : String → String → Except String (Nat × String)
  parseITunes : String → Except String ITunesSearchResponse
  parseDeezer : String → Except String DeezerSearchResponse
  parseMB : String → Except String MusicBrainzSearchResponse

/-- The iTunes search URL built by SearchITunesForCover. -/
def itunesSearchURL (env : CoverNetEnv) (trackName artistName : String) : String :=
  "https://itunes.apple.com/search?term=" ++ env.queryEscape (trackName ++ " " ++ artistName)
    ++ "&media=music&entity=song&limit=5"

/-- Embedding of SearchITunesForCover: validate, issue one GET, decode,
upgrade the 100x100 artwork URL to 3000x3000.  Once validation passes the
function issues exactly one GET and never sleeps, so the trace is that
single request in every branch. -/
def SearchITunesForCover (env : CoverNetEnv) (trackName artistName : String) :
    Except String String × List HttpEffect :=
  if trackName = "" ∨ artistName = "" then
    (.error "track name and artist name are required", [])
  else
    let apiURL := itunesSearchURL env trackName artistName
    let res : Except String String :=
      match env.httpDo "GET" apiURL with
      | .error e => .error ("iTunes API request failed: " ++ e)
      | .ok (status, body) =>
        if status ≠ 200 then .error ("iTunes API returned status " ++ toString status)
        else
          match env.parseITunes body with
          | .error e => .error ("failed to parse response: " ++ e)
          | .ok r =>
            if r.resultCount = 0 ∨ r.results = [] then .error "no results found"
            else
              match r.results with
              | [] => .error "no results found"
              | first :: _ =>
                if first.artworkUrl100 = "" then .error "no artwork URL in response"
                else .ok (replaceFirst first.artworkUrl100 "100x100bb" "3000x3000bb")
    (res, [HttpEffect.httpGet apiURL])

/-- The Deezer search URL built by SearchDeezerForCover. -/
def deezerSearchURL (env : CoverNetEnv) (trackName artistName : String) : String :=
  "https://api.deezer.com/search?q=" ++ env.queryEscape (trackName ++ " " ++ artistName)
    ++ "&limit=1"

/-- Embedding of SearchDeezerForCover: validate, issue one GET, decode,
return the extra-large album cover of the first hit.  Once validation
passes the function issues exactly one GET and never sleeps, so the
trace is that single request in every branch. -/
def SearchDeezerForCover (env : CoverNetEnv) (trackName artistName : String) :
    Except String String × List HttpEffect :=
  if trackName = "" ∨ artistName = "" then
    (.error "track name and artist name are required", [])
  else
    let apiURL := deezerSearchURL env trackName artistName
    let res : Except String String :=
      match env.httpDo "GET" apiURL with
      | .error e => .error ("Deezer API request failed: " ++ e)
      | .ok (status, body) =>
        if status ≠ 200 then .error ("Deezer API returned status " ++ toString status)
        else
          match env.parseDeezer body with
          | .error e => .error ("failed to parse response: " ++ e)
          | .ok r =>
            match r.data with
            | [] => .error "no results found"
            | first :: _ =>
              if first.albumCoverXL = "" then .error "no cover URL in response"
              else .ok first.albumCoverXL
    (res, [HttpEffect.httpGet apiURL])

/-- The MusicBrainz recording-search URL built by SearchMusicBrainzForCover. -/
def musicBrainzSearchURL (env : CoverNetEnv) (trackName artistName : String) : String :=
  "https://musicbrainz.org/ws/2/recording/?query="
    ++ env.queryEscape ("recording:\"" ++ trackName ++ "\" AND artist:\"" ++ artistName ++ "\"")
    ++ "&fmt=json&limit=1"

/-- Embedding of SearchMusicBrainzForCover: validate, sleep 1100
milliseconds (the MusicBrainz rate limit is one request per second),
issue the GET, decode, then verify the Cover Art Archive URL with a HEAD
request. -/
def SearchMusicBrainzForCover (env : CoverNetEnv) (trackName artistName : String) :
    Except String String × List HttpEffect :=
  if trackName = "" ∨ artistName = "" then
    (.error "track name and artist name are required", [])
  else
    let apiURL := musicBrainzSearchURL env trackName artistName
    let effs := [HttpEffect.sleep 1100, HttpEffect.httpGet apiURL]
    match env.httpDo "GET" apiURL with
    | .error e => (.error ("MusicBrainz API request failed: " ++ e), effs)
    | .ok (status, body) =>
      if status ≠ 200 then
        (.error ("MusicBrainz API returned status " ++ toString status), effs)
      else
        match env.parseMB body with
        | .error e => (.error ("failed to parse response: " ++ e), effs)
        | .ok r =>
          match r.recordings with
          | [] => (.error "no recordings found", effs)
          | rec :: _ =>
            match rec.releases with
            | [] => (.error "no releases found for recording", effs)
            | rel :: _ =>
              let coverURL := "https://coverartarchive.org/release/" ++ rel.id ++ "/front"
              let effs2 := effs ++ [HttpEffect.httpHead coverURL]
              match env.httpDo "HEAD" coverURL with
              | .error e => (.error ("failed to verify cover: " ++ e), effs2)
              | .ok (st2, _) =>
                if st2 ≠ 200 then
                  (.error ("cover not available (status " ++ toString st2 ++ ")"), effs2)
                else (.ok coverURL, effs2)

/-! ## database.go: GetISRCFromDatabase -/

/-- Outcome of the single-row ISRC query. -/
inductive QueryResult where
  | row (isrc : String)
  | noRows
  | queryError (e : String)
deriving DecidableEq, Repr

/-- SQLite collaborators: opening the handle, pinging the connection and
running the one ISRC query, each keyed by the database path. -/
structure DBEnv where
  openDB : String → Except String Unit
  ping : String → Except String Unit
  queryISRC : String → String → QueryResult

/-- Embedding of GetISRCFromDatabase: empty path short-circuits to an
empty ISRC with no error; open and ping failures and query errors are
reported; a missing row yields an empty ISRC with no error. -/
def GetISRCFromDatabase (env : DBEnv) (databasePath spotifyID : String) :
    String × Option String :=
  if databasePath = "" then ("", none)
  else
    match env.openDB databasePath with
    | .error e => ("", some ("failed to open database: " ++ e))
    | .ok _ =>
      match env.ping databasePath with
      | .error e => ("", some ("failed to connect to database: " ++ e))
      | .ok _ =>
        match env.queryISRC databasePath spotifyID with
        | .noRows => ("", none)
        | .queryError e => ("", some ("database query error: " ++ e))
        | .row isrc => (isrc, none)

/-! ## app.go: DownloadTrack and its queue effects -/

/-- The fields of the DownloadRequest consumed by DownloadTrack. -/
structure DownloadRequest where
  isrc : String
  service : String
  trackName : String
  artistName : String
  albumName : String
  albumArtist : String
  releaseDate : String
  coverURL : String
  apiURL : String
  outputDir : String
  audioFormat : String
  filenameFormat : String
  trackNumber : Bool
  position : Nat
  useAlbumTrackNumber : Bool
  spotifyID : String
  serviceURL : String
  itemID : String
  spotifyDiscNumber : Nat
deriving DecidableEq, Repr

/-- An all-empty request, written out once and specialised per test. -/
def emptyRequest : DownloadRequest :=
  { isrc := "", service := "", trackName := "", artistName := "", albumName := ""
    albumArtist := "", releaseDate := "", coverURL := "", apiURL := "", outputDir := ""
    audioFormat := "", filenameFormat := "", trackNumber := false, position := 0
    useAlbumTrackNumber := false, spotifyID := "", serviceURL := "", itemID := ""
    spotifyDiscNumber := 0 }

/-- The DownloadResponse returned over the app boundary. -/
structure DownloadResponse where
  success : Bool
  message : String
  file : String
  error : String
  alreadyExists : Bool
  itemID : String
deriving DecidableEq, Repr

/-- The concrete downloader invocation selected by the service switch. -/
inductive ServiceCall where
  | amazonByURL (serviceURL : String)
  | amazonBySpotifyID (spotifyID : String)
  | tidalByURLFallback (serviceURL : String)
  | tidalSearchFallback (spotifyID isrc : String)
  | tidalByURL (apiURL serviceURL : String)
  | tidalSearch (apiURL spotifyID isrc : String)
  | qobuzByISRC (isrc quality : String)
deriving DecidableEq, Repr

/-- Whether the call fetches from a caller-supplied direct URL. -/
def usesDirectURL : ServiceCall → Bool
  | .amazonByURL _ => true
  | .tidalByURLFallback _ => true
  | .tidalByURL _ _ => true
  | _ => false

/-- The direct URL a call fetches from, when it is a by-URL call. -/
def directURLOf : ServiceCall → Option String
  | .amazonByURL u => some u
  | .tidalByURLFallback u => some u
  | .tidalByURL _ u => some u
  | _ => none

/-- Observable effects of one DownloadTrack call on the queue store and
the file system. -/
inductive Effect where
  | addToQueue (id : String)
  | setDownloading (b : Bool)
  | startItem (id : String)
  | skipItem (id : String) (path : String)
  | completeItem (id : String) (path : String) (size : Nat)
  | failItem (id : String) (msg : String)
  | removeFile (path : String)
  | serviceDownload (c : ServiceCall)
deriving DecidableEq, Repr

/-- Collaborators of DownloadTrack.  runService returns the file name the
downloader reported together with an optional error, exactly the Go pair;
stat returns the size of an existing file; buildExpectedFilename stands
for backend.BuildExpectedFilename with the same ten arguments. -/
structure Env where
  nowNanos : Nat
  normalizePath : String → String
  checkISRCExists : String → String → Option String
  buildExpectedFilename : String → String → String → String → String → String →
    Bool → Nat → Nat → Bool → String
  stat : String → Option Nat
  readISRCFromFile : String → Except String String
  runService : ServiceCall → String × Option String

/-- The request after the defaulting block at the top of DownloadTrack:
service tidal, output directory "." or normalized, audio format LOSSLESS,
filename format title-artist. -/
def defaultedReq (env : Env) (req : DownloadRequest) : DownloadRequest :=
  { req with
    service := if req.service = "" then "tidal" else req.service
    outputDir := if req.outputDir = "" then "." else env.normalizePath req.outputDir
    audioFormat := if req.audioFormat = "" then "LOSSLESS" else req.audioFormat
    filenameFormat := if req.filenameFormat = "" then "title-artist" else req.filenameFormat }

/-- The item id used for queue reporting: the caller-supplied one, or a
generated isrc-timestamp token for legacy callers. -/
def genItemID (env : Env) (req : DownloadRequest) : String :=
  if req.itemID = "" then req.isrc ++ "-" ++ toString env.nowNanos else req.itemID

/-- The effects issued before any dedup check: the legacy enqueue when no
item id was supplied, the download flag, and the start transition. -/
def startEffects (req : DownloadRequest) (itemID : String) : List Effect :=
  (if req.itemID = "" then [Effect.addToQueue itemID] else [])
    ++ [Effect.setDownloading true, Effect.startItem itemID]

/-- The expected path of the path-based dedup check. -/
def expectedPath (env : Env) (req : DownloadRequest) : String :=
  joinPath req.outputDir
    (env.buildExpectedFilename req.trackName req.artistName req.albumName req.albumArtist
      req.releaseDate req.filenameFormat req.trackNumber req.position req.spotifyDiscNumber
      req.useAlbumTrackNumber)

/-- Decision of the path-based dedup check. -/
inductive PathCheckResult where
  | skipExisting (path : String)
  | removeCorrupt (path : String)
  | proceed
deriving DecidableEq, Repr

/-- Embedding of the path-based dedup block of DownloadTrack: only with
both track and artist names, only for an existing file larger than 100
KiB; such a file with a readable non-empty embedded ISRC is skipped, such
a file without one is deleted as corrupt, and anything else falls
through to a fresh download. -/
def pathCheck (env : Env) (req : DownloadRequest) : PathCheckResult :=
  if req.trackName ≠ "" ∧ req.artistName ≠ "" then
    match env.stat (expectedPath env req) with
    | some size =>
      if size > 100 * 1024 then
        match env.readISRCFromFile (expectedPath env req) with
        | .ok fileISRC =>
          if fileISRC ≠ "" then .skipExisting (expectedPath env req)
          else .removeCorrupt (expectedPath env req)
        | .error _ => .removeCorrupt (expectedPath env req)
      else .proceed
    | none => .proceed
  else .proceed

/-- The file-removal effect of a corrupt dedup decision. -/
def corruptCleanupEffects : PathCheckResult → List Effect
  | .removeCorrupt p => [Effect.removeFile p]
  | _ => []

/-- Embedding of the service switch of DownloadTrack, on the defaulted
request: Amazon and Tidal use the direct service URL when one is supplied
and otherwise demand a Spotify id for their search path; Qobuz always
downloads by ISRC; any other service name is rejected. -/
def dispatchService (req : DownloadRequest) : Except String ServiceCall :=
  if req.service = "amazon" then
    if req.serviceURL ≠ "" then .ok (.amazonByURL req.serviceURL)
    else if req.spotifyID = "" then .error "Spotify ID is required for Amazon Music"
    else .ok (.amazonBySpotifyID req.spotifyID)
  else if req.service = "tidal" then
    if req.apiURL = "" ∨ req.apiURL = "auto" then
      if req.serviceURL ≠ "" then .ok (.tidalByURLFallback req.serviceURL)
      else if req.spotifyID = "" then .error "Spotify ID is required for Tidal"
      else .ok (.tidalSearchFallback req.spotifyID req.isrc)
    else
      if req.serviceURL ≠ "" then .ok (.tidalByURL req.apiURL req.serviceURL)
      else if req.spotifyID = "" then .error "Spotify ID is required for Tidal"
      else .ok (.tidalSearch req.apiURL req.spotifyID req.isrc)
  else if req.service = "qobuz" then
    .ok (.qobuzByISRC req.isrc (if req.audioFormat = "" then "6" else req.audioFormat))
  else .error ("Unknown service: " ++ req.service)

/-- Drop the EXISTS: marker a downloader puts in front of an
already-present file name (Go strings.TrimPrefix at this one call site). -/
def dropExistsTag (s : String) : String :=
  if strStartsWith s "EXISTS:" then ⟨s.data.drop 7⟩ else s

/-- Result of one DownloadTrack call: the response, the Go error value
and the ordered effect trace. -/
structure DownloadOutcome where
  resp : DownloadResponse
  goError : Option String
  trace : List Effect
deriving DecidableEq, Repr

/-- An early-exit skip outcome (both dedup checks end here). -/
def skipOutcome (itemID path msg : String) (pre : List Effect) : DownloadOutcome :=
  { resp := { success := true, message := msg, file := path, error := ""
              alreadyExists := true, itemID := itemID }
    goError := none
    trace := pre ++ [Effect.skipItem itemID path, Effect.setDownloading false] }

/-- Embedding of the tail of DownloadTrack from the service switch on: a
switch error returns a failure response with no item id, exactly as the
source builds those responses; a failed download removes the partial file
it reported (when it names one that exists and is not an EXISTS: marker)
and returns failure without failing the queue item; a successful download
either skips (EXISTS: marker) or completes the item.  The detached lyrics
goroutine performs no queue transition and no removal, so it leaves no
trace here; the completion size stands in bytes for the megabyte figure
the source derives from the same stat call. -/
def runServicePhase (env : Env) (itemID : String) (d : Except String ServiceCall) :
    DownloadOutcome :=
  match d with
  | .error msg =>
    { resp := { success := false, message := "", file := "", error := msg
                alreadyExists := false, itemID := "" }
      goError := some msg
      trace := [Effect.setDownloading false] }
  | .ok c =>
    match env.runService c with
    | (filename, some e) =>
      let cleanup :=
        if filename ≠ "" ∧ strStartsWith filename "EXISTS:" = false ∧ (env.stat filename).isSome
        then [Effect.removeFile filename] else []
      { resp := { success := false, message := "", file := ""
                  error := "Download failed: " ++ e, alreadyExists := false, itemID := itemID }
        goError := some e
        trace := [Effect.serviceDownload c] ++ cleanup ++ [Effect.setDownloading false] }
    | (filename, none) =>
      if strStartsWith filename "EXISTS:" then
        let fn := dropExistsTag filename
        { resp := { success := true, message := "File already exists", file := fn, error := ""
                    alreadyExists := true, itemID := itemID }
          goError := none
          trace := [Effect.serviceDownload c, Effect.skipItem itemID fn,
                    Effect.setDownloading false] }
      else
        { resp := { success := true, message := "Download completed successfully"
                    file := filename, error := "", alreadyExists := false, itemID := itemID }
          goError := none
          trace := [Effect.serviceDownload c,
                    Effect.completeItem itemID filename ((env.stat filename).getD 0),
                    Effect.setDownloading false] }

/-- Embedding of DownloadTrack: reject an empty ISRC, apply the defaults,
start the item, then the identity-based dedup check, then the path-based
one (with its corrupt-file cleanup), then the service switch and the
download itself. -/
def DownloadTrack (env : Env) (req0 : DownloadRequest) : DownloadOutcome :=
  if req0.isrc = "" then
    { resp := { success := false, message := "", file := "", error := "ISRC is required"
                alreadyExists := false, itemID := "" }
      goError := some "ISRC is required"
      trace := [] }
  else
    let req := defaultedReq env req0
    let itemID := genItemID env req0
    let pre := startEffects req0 itemID
    match env.checkISRCExists req.outputDir req0.isrc with
    | some existingFile =>
      skipOutcome itemID existingFile "File with same ISRC already exists" pre
    | none =>
      match pathCheck env req with
      | .skipExisting p => skipOutcome itemID p "File already exists" pre
      | pc =>
        let o := runServicePhase env itemID (dispatchService req)
        { o with trace := pre ++ corruptCleanupEffects pc ++ o.trace }

/-- The aggregated message of an exhausted fallback pass. -/
def aggregateFailureMessage (errs : List String) : String :=
  "All services failed: " ++ joinWith "; " errs

/-- Modelled from the spec: the multi-service fallback loop lives in the
frontend, which is not part of the sources here; per the resolution
engine and failure-semantics sections it tries each configured service in
priority order through DownloadTrack, stops at the first success, and
only after exhausting every service reports one aggregated failure to the
queue item through MarkDownloadItemFailed.  The accumulator carries the
per-service errors already absorbed, in reverse order. -/
def downloadWithFallbackAux (env : Env) (req : DownloadRequest) :
    List String → List String → Except String DownloadResponse × List Effect
  | [], errs =>
    let msg := aggregateFailureMessage errs.reverse
    (.error msg, [Effect.failItem req.itemID msg])
  | s :: rest, errs =>
    let o := DownloadTrack env { req with service := s }
    match o.goError with
    | none => (.ok o.resp, o.trace)
    | some e =>
      let r := downloadWithFallbackAux env req rest (e :: errs)
      (r.1, o.trace ++ r.2)

/-- Modelled from the spec: entry point of the fallback driver. -/
def downloadWithFallback (env : Env) (req : DownloadRequest)
    (services : List String) : Except String DownloadResponse × List Effect :=
  downloadWithFallbackAux env req services []

/-- Recognise queue-failure effects. -/
def isFailEff : Effect → Bool
  | .failItem _ _ => true
  | _ => false

/-- Recognise service-download effects. -/
def isServiceEff : Effect → Bool
  | .serviceDownload _ => true
  | _ => false

/-- Recognise a download attempt that fetches from a direct service URL. -/
def isDirectURLDownload : Effect → Bool
  | .serviceDownload c => usesDirectURL c
  | _ => false

/-- The read-back of the embedded ISRC counts as invalid when it errors
or yields the empty string; this is the condition under which the
path-based dedup check deletes the file. -/
def isrcInvalid : Except String String → Bool
  | .ok s => s == ""
  | .error _ => true

/-- The per-service error texts absorbed by a full fallback pass. -/
def collectErrors (env : Env) (req : DownloadRequest) (services : List String) :
    List String :=
  services.map (fun s => ((DownloadTrack env { req with service := s }).goError).getD "")

/-! ## Concrete fixtures used by the witnesses and counterexamples -/

/-- Environment in which the identity-based dedup check always finds an
existing file. -/
def envIsrcHit : Env :=
  { nowNanos := 0
    normalizePath := fun s => s
    checkISRCExists := fun _ _ => some "/out/existing.flac"
    buildExpectedFilename := fun t _ _ _ _ _ _ _ _ _ => t ++ ".flac"
    stat := fun _ => none
    readISRCFromFile := fun _ => .error "no tag"
    runService := fun _ => ("", some "network failure") }

/-- Request whose ISRC matches a file already on disk. -/
def reqIsrcHit : DownloadRequest :=
  { emptyRequest with isrc := "USUM71703861", itemID := "item-1", outputDir := "/out" }

/-- Environment holding a zero-byte file at the expected path with no
readable tag metadata. -/
def envZeroByte : Env :=
  { nowNanos := 0
    normalizePath := fun s => s
    checkISRCExists := fun _ _ => none
    buildExpectedFilename := fun t _ _ _ _ _ _ _ _ _ => t ++ ".flac"
    stat := fun p => if p = "/out/Song.flac" then some 0 else none
    readISRCFromFile := fun _ => .error "no metadata"
    runService := fun _ => ("", some "network failure") }

/-- Request aimed at the zero-byte file fixture. -/
def reqZeroByte : DownloadRequest :=
  { emptyRequest with isrc := "USX17607839", trackName := "Song", artistName := "Artist"
                      outputDir := "/out", service := "qobuz", itemID := "item-2" }

/-- Environment holding a large tag-less file at the expected path. -/
def envCorrupt : Env :=
  { envZeroByte with stat := fun p => if p = "/out/Song.flac" then some 2000000 else none }

/-- Environment whose downloader reports a partial file and then fails. -/
def envPartial : Env :=
  { nowNanos := 0
    normalizePath := fun s => s
    checkISRCExists := fun _ _ => none
    buildExpectedFilename := fun t _ _ _ _ _ _ _ _ _ => t ++ ".flac"
    stat := fun p => if p = "/out/partial.flac" then some 4096 else none
    readISRCFromFile := fun _ => .error "no tag"
    runService := fun _ => ("/out/partial.flac", some "connection reset") }

/-- Request driving the partial-file fixture through the Qobuz branch. -/
def reqPartial : DownloadRequest :=
  { emptyRequest with isrc := "GBUM72000001", outputDir := "/out", service := "qobuz"
                      itemID := "item-3" }

/-- Request with a direct service URL aimed at the Qobuz branch. -/
def reqQobuzURL : DownloadRequest :=
  { emptyRequest with isrc := "USQ771500001", service := "qobuz"
                      serviceURL := "https://tidal.com/track/42", itemID := "item-8"
                      outputDir := "/out" }

/-- Request with a direct service URL aimed at the Tidal branch. -/
def reqTidalURL : DownloadRequest :=
  { emptyRequest with isrc := "USQ771500002", service := "tidal"
                      serviceURL := "https://tidal.com/track/43", itemID := "item-9"
                      outputDir := "/out" }

/-- Database fixture: reachable database with no matching row. -/
def dbEnvNoRow : DBEnv :=
  { openDB := fun _ => .ok (), ping := fun _ => .ok (), queryISRC := fun _ _ => .noRows }

/-- Cover-network fixture with a fixed transport failure. -/
def coverNetFail : CoverNetEnv :=
  { queryEscape := fun s => s
    httpDo := fun _ _ => .error "no route to host"
    parseITunes := fun _ => .error "bad json"
    parseDeezer := fun _ => .error "bad json"
    parseMB := fun _ => .error "bad json" }

/-- Cover-resolution fixture: only iTunes yields a URL. -/
def coverEnvITunes : CoverEnv :=
  { getAlbumCoverFromDatabase := fun _ _ => ""
    getCoverByTrackFromDatabase := fun _ _ _ => ""
    searchITunesForCover := fun _ _ => "https://img.example/cover.jpg"
    searchDeezerForCover := fun _ _ => "https://deezer.example/c.jpg"
    searchSpotifyForCover := fun _ _ _ => "https://spotify.example/c.jpg"
    searchMusicBrainzForCover := fun _ _ => "https://caa.example/c.jpg" }

/-- File-system fixture for the scan: two audio files, one with a
sibling cover. -/
def fsTwoTracks : List FSEntry :=
  [ { path := "/lib", isDir := true }
  , { path := "/lib/a.flac", isDir := false }
  , { path := "/lib/a.jpg", isDir := false }
  , { path := "/lib/b.mp3", isDir := false }
  , { path := "/lib/notes.txt", isDir := false } ]

/-- Existence oracle matching the fsTwoTracks fixture. -/
def statTwoTracks (p : String) : Bool :=
  (fsTwoTracks.filter (fun e => !e.isDir)).any (fun e => e.path = p)

/-- Request fixture for the fallback driver: no Spotify id and no
service URL, so the Tidal branch rejects it and the Qobuz branch fails
over the network. -/
def reqFallback : DownloadRequest :=
  { emptyRequest with isrc := "USFB00000001", itemID := "item-4", outputDir := "/out" }

/-! ## Theorems -/

/-- Claim C10: GetISRCFromDatabase returns an empty identifier with a nil
error both when no database path is configured and when the query matches
no row, and returns a non-nil error only on open, connect or query
failures. -/
theorem getISRCFromDatabase_notfound_silent (env : DBEnv) (p id : String) :
    (p = "" → GetISRCFromDatabase env p id = ("", none)) ∧
    (env.openDB p = .ok () → env.ping p = .ok () → env.queryISRC p id = .noRows →
      GetISRCFromDatabase env p id = ("", none)) ∧
    ((GetISRCFromDatabase env p id).2.isSome = true →
      (∃ e, env.openDB p = .error e) ∨ (∃ e, env.ping p = .error e) ∨
      (∃ e, env.queryISRC p id = .queryError e)) := by
  refine ⟨fun hp => by simp [GetISRCFromDatabase, hp], ?_, ?_⟩
  · intro h1 h2 h3
    by_cases hp : p = ""
    · simp [GetISRCFromDatabase, hp]
    · simp [GetISRCFromDatabase, hp, h1, h2, h3]
  · intro hs
    by_cases hp : p = ""
    · simp [GetISRCFromDatabase, hp] at hs
    · cases ho : env.openDB p with
      | error e => exact Or.inl ⟨e, rfl⟩
      | ok u =>
        cases hg : env.ping p with
        | error e => exact Or.inr (Or.inl ⟨e, rfl⟩)
        | ok u2 =>
          cases hq : env.queryISRC p id with
          | row isrc => simp [GetISRCFromDatabase, hp, ho, hg, hq] at hs
          | noRows => simp [GetISRCFromDatabase, hp, ho, hg, hq] at hs
          | queryError e => exact Or.inr (Or.inr ⟨e, rfl⟩)

/-- Witness for C10 at a concrete database fixture: an unconfigured path
and a missing row both resolve to an empty identifier with no error. -/
theorem getISRCFromDatabase_notfound_silent_witness :
    GetISRCFromDatabase dbEnvNoRow "" "trackid" = ("", none) ∧
    GetISRCFromDatabase dbEnvNoRow "/data/cache.db" "trackid" = ("", none) :=
  ⟨(getISRCFromDatabase_notfound_silent dbEnvNoRow "" "trackid").1 rfl,
   (getISRCFromDatabase_notfound_silent dbEnvNoRow "/data/cache.db" "trackid").2.1 rfl rfl rfl⟩

/-- Claim C9: every validated SearchMusicBrainzForCover call sleeps a
fixed 1100 milliseconds, more than one second, before issuing its
request, while SearchITunesForCover and SearchDeezerForCover never issue
a sleep. -/
theorem musicbrainz_fixed_delay (env : CoverNetEnv) (t a : String) :
    (t ≠ "" → a ≠ "" →
      (SearchMusicBrainzForCover env t a).2.head? = some (HttpEffect.sleep 1100) ∧
      HttpEffect.httpGet (musicBrainzSearchURL env t a) ∈ (SearchMusicBrainzForCover env t a).2 ∧
      1000 < 1100) ∧
    (∀ ms, HttpEffect.sleep ms ∉ (SearchITunesForCover env t a).2) ∧
    (∀ ms, HttpEffect.sleep ms ∉ (SearchDeezerForCover env t a).2) := by
  refine ⟨?_, ?_, ?_⟩
  · intro ht ha
    unfold SearchMusicBrainzForCover
    rw [if_neg (by simp [ht, ha])]
    refine ⟨?_, ?_, by norm_num⟩ <;>
    · cases h1 : env.httpDo "GET" (musicBrainzSearchURL env t a) with
      | error e => simp [h1]
      | ok pr =>
        obtain ⟨st, body⟩ := pr
        by_cases hst : st = 200
        · cases h2 : env.parseMB body with
          | error e => simp [h1, hst, h2]
          | ok r =>
            cases hr : r.recordings with
            | nil => simp [h1, hst, h2, hr]
            | cons rec rest =>
              cases hrel : rec.releases with
              | nil => simp [h1, hst, h2, hr, hrel]
              | cons rel rrest =>
                cases h3 : env.httpDo "HEAD"
                    ("https://coverartarchive.org/release/" ++ rel.id ++ "/front") with
                | error e => simp [h1, hst, h2, hr, hrel, h3]
                | ok pr2 =>
                  obtain ⟨st2, body2⟩ := pr2
                  by_cases hst2 : st2 = 200 <;> simp [h1, hst, h2, hr, hrel, h3, hst2]
        · simp [h1, hst]
  · intro ms
    unfold SearchITunesForCover
    by_cases hv : t = "" ∨ a = ""
    · simp [hv]
    · rw [if_neg hv]
      simp
  · intro ms
    unfold SearchDeezerForCover
    by_cases hv : t = "" ∨ a = ""
    · simp [hv]
    · rw [if_neg hv]
      simp

/-- Witness for C9 at the concrete network fixture. -/
theorem musicbrainz_fixed_delay_witness :
    (SearchMusicBrainzForCover coverNetFail "Song" "Artist").2.head?
      = some (HttpEffect.sleep 1100) ∧
    HttpEffect.sleep 1100 ∉ (SearchITunesForCover coverNetFail "Song" "Artist").2 ∧
    HttpEffect.sleep 1100 ∉ (SearchDeezerForCover coverNetFail "Song" "Artist").2 := by
  have h := musicbrainz_fixed_delay coverNetFail "Song" "Artist"
  exact ⟨(h.1 (by decide) (by decide)).1, h.2.1 1100, h.2.2 1100⟩

/-- Counterexample to claim C6: with empty tags and the base name
"Foo - Bar", the repair-pass fallback puts the segment before the
separator into the title and the segment after it into the artist, not
the other way round as the claim states. -/
theorem filename_fallback_orientation_counterexample :
    (applyFilenameFallback { title := "", artist := "", album := "", albumArtist := "" }
        "/music/Foo - Bar.flac").title = "Foo" ∧
    (applyFilenameFallback { title := "", artist := "", album := "", albumArtist := "" }
        "/music/Foo - Bar.flac").artist = "Bar" ∧
    ¬((applyFilenameFallback { title := "", artist := "", album := "", albumArtist := "" }
        "/music/Foo - Bar.flac").artist = "Foo" ∧
      (applyFilenameFallback { title := "", artist := "", album := "", albumArtist := "" }
        "/music/Foo - Bar.flac").title = "Bar") := by
  decide

/-- Claim C6 as amended: tag data stays authoritative and the fallback
runs only when the tag title or artist is empty; but the worker fallback
reads the base name under a Title - Artist orientation (the segment
before the first " - " fills an empty title, the segment after it fills
an empty artist), matching the default title-artist filename format,
while only the M4A extractor uses the Artist - Title orientation; a
filename-derived value never overwrites a non-empty tag value, and with
no separator the whole base name becomes the title. -/
theorem filename_fallback_amended (m : Metadata) (p : String) :
    (m.title ≠ "" → m.artist ≠ "" → applyFilenameFallback m p = m) ∧
    (m.title ≠ "" → (applyFilenameFallback m p).title = m.title) ∧
    (m.artist ≠ "" → (applyFilenameFallback m p).artist = m.artist) ∧
    (m.title = "" → goContains (baseNameNoExt p) " - " = true →
      ∀ p0 p1, goSplitN2 (baseNameNoExt p) " - " = [p0, p1] →
      goTrimSpace p0 ≠ "" →
      (applyFilenameFallback m p).title = goTrimSpace p0) ∧
    (m.artist = "" → goContains (baseNameNoExt p) " - " = true →
      ∀ p0 p1, goSplitN2 (baseNameNoExt p) " - " = [p0, p1] →
      (applyFilenameFallback m p).artist = goTrimSpace p1) ∧
    (m.title = "" → goContains (baseNameNoExt p) " - " = false →
      (applyFilenameFallback m p).title = baseNameNoExt p) ∧
    (∀ q0 q1 qs, goSplit (baseNameNoExt p) " - " = q0 :: q1 :: qs →
      (extractMetadataFromM4A p).artist = goTrimSpace q0 ∧
      (extractMetadataFromM4A p).title = goTrimSpace q1) := by
  refine ⟨?_, ?_, ?_, ?_, ?_, ?_, ?_⟩
  · intro h1 h2
    simp [applyFilenameFallback, h1, h2]
  · intro h1
    by_cases ha : m.artist = ""
    · by_cases hc : goContains (baseNameNoExt p) " - " = true
      · cases hsp : goSplitN2 (baseNameNoExt p) " - " with
        | nil => simp [applyFilenameFallback, h1, ha, hc, hsp]
        | cons p0 tl =>
          cases tl with
          | nil => simp [applyFilenameFallback, h1, ha, hc, hsp]
          | cons p1 tl2 =>
            cases tl2 with
            | nil => simp [applyFilenameFallback, h1, ha, hc, hsp]
            | cons p2 tl3 => simp [applyFilenameFallback, h1, ha, hc, hsp]
      · simp [applyFilenameFallback, h1, ha, hc]
    · simp [applyFilenameFallback, h1, ha]
  · intro ha
    by_cases h1 : m.title = ""
    · by_cases hc : goContains (baseNameNoExt p) " - " = true
      · cases hsp : goSplitN2 (baseNameNoExt p) " - " with
        | nil => simp [applyFilenameFallback, h1, ha, hc, hsp]
        | cons p0 tl =>
          cases tl with
          | nil => simp [applyFilenameFallback, h1, ha, hc, hsp]
          | cons p1 tl2 =>
            cases tl2 with
            | nil =>
              simp [applyFilenameFallback, h1, ha, hc, hsp]
              all_goals (split <;> simp [ha])
            | cons p2 tl3 => simp [applyFilenameFallback, h1, ha, hc, hsp]
      · simp [applyFilenameFallback, h1, ha, hc]
    · simp [applyFilenameFallback, h1, ha]
  · intro h1 hc p0 p1 hsp ht
    by_cases ha : m.artist = "" <;>
      simp [applyFilenameFallback, h1, ha, hc, hsp, ht]
  · intro ha hc p0 p1 hsp
    by_cases h1 : m.title = ""
    · by_cases ht : goTrimSpace p0 = "" <;>
        simp [applyFilenameFallback, h1, ha, hc, hsp, ht]
    · simp [applyFilenameFallback, h1, ha, hc, hsp]
  · intro h1 hc
    by_cases ha : m.artist = "" <;>
      simp [applyFilenameFallback, h1, ha, hc]
  · intro q0 q1 qs hsp
    simp only [baseNameNoExt] at hsp
    simp only [extractMetadataFromM4A, hsp]
    simp

/-- Witness for the amended C6 at concrete inputs: the fallback fills
the empty title from "Foo - Bar" with Foo and keeps a non-empty artist,
and the M4A extractor reads the same name as artist Foo and title Bar. -/
theorem filename_fallback_amended_witness :
    (applyFilenameFallback { title := "", artist := "T2", album := "", albumArtist := "" }
        "/d/Foo - Bar.flac").artist = "T2" ∧
    (extractMetadataFromM4A "/d/Foo - Bar.m4a").artist = "Foo" ∧
    (extractMetadataFromM4A "/d/Foo - Bar.m4a").title = "Bar" := by
  have h1 := (filename_fallback_amended
      { title := "", artist := "T2", album := "", albumArtist := "" } "/d/Foo - Bar.flac").2.2.1
  have h2 := (filename_fallback_amended
      { title := "", artist := "T2", album := "", albumArtist := "" }
      "/d/Foo - Bar.m4a").2.2.2.2.2.2 "Foo" "Bar" [] (by decide)
  refine ⟨?_, ?_, ?_⟩
  · rw [h1 (by decide)]
  · rw [h2.1]
    decide
  · rw [h2.2]
    decide

/-- Reduction of DownloadTrack when the identity-based dedup check hits. -/
theorem downloadTrack_isrcHit_eq (env : Env) (req : DownloadRequest) (f : String)
    (h1 : req.isrc ≠ "")
    (h2 : env.checkISRCExists (defaultedReq env req).outputDir req.isrc = some f) :
    DownloadTrack env req
      = skipOutcome (genItemID env req) f "File with same ISRC already exists"
          (startEffects req (genItemID env req)) := by
  unfold DownloadTrack
  rw [if_neg h1]
  simp only [h2]

/-- Reduction of DownloadTrack when both dedup checks fall through to the
service switch. -/
theorem downloadTrack_service_eq (env : Env) (req : DownloadRequest)
    (h1 : req.isrc ≠ "")
    (h2 : env.checkISRCExists (defaultedReq env req).outputDir req.isrc = none)
    (h3 : ∀ p, pathCheck env (defaultedReq env req) ≠ .skipExisting p) :
    DownloadTrack env req
      = { runServicePhase env (genItemID env req) (dispatchService (defaultedReq env req)) with
          trace := startEffects req (genItemID env req)
            ++ corruptCleanupEffects (pathCheck env (defaultedReq env req))
            ++ (runServicePhase env (genItemID env req)
                  (dispatchService (defaultedReq env req))).trace } := by
  unfold DownloadTrack
  rw [if_neg h1]
  simp only [h2]

/-- The effects before the switch never include a service download, a
completion or a queue failure. -/
theorem startEffects_kinds (req : DownloadRequest) (i : String) (a : Effect)
    (ha : a ∈ startEffects req i) :
    a = Effect.addToQueue i ∨ a = Effect.setDownloading true ∨ a = Effect.startItem i := by
  unfold startEffects at ha
  by_cases hq : req.itemID = "" <;> simp [hq] at ha <;> tauto

/-- Claim C1: a request whose ISRC matches the embedded tag of an
existing file is skipped with that path, succeeds with AlreadyExists,
and triggers no service download, no completion and no queue failure. -/
theorem downloadTrack_isrc_dedup_skips (env : Env) (req : DownloadRequest) (f : String)
    (h1 : req.isrc ≠ "")
    (h2 : env.checkISRCExists (defaultedReq env req).outputDir req.isrc = some f) :
    (DownloadTrack env req).resp.success = true ∧
    (DownloadTrack env req).resp.alreadyExists = true ∧
    (DownloadTrack env req).resp.file = f ∧
    (DownloadTrack env req).goError = none ∧
    Effect.skipItem (genItemID env req) f ∈ (DownloadTrack env req).trace ∧
    (∀ c, Effect.serviceDownload c ∉ (DownloadTrack env req).trace) ∧
    (∀ i q s, Effect.completeItem i q s ∉ (DownloadTrack env req).trace) ∧
    (∀ i q, Effect.failItem i q ∉ (DownloadTrack env req).trace) := by
  rw [downloadTrack_isrcHit_eq env req f h1 h2]
  refine ⟨rfl, rfl, rfl, rfl, ?_, ?_, ?_, ?_⟩
  · simp [skipOutcome]
  · intro c hc
    simp only [skipOutcome, List.mem_append] at hc
    rcases hc with hc | hc
    · rcases startEffects_kinds req (genItemID env req) _ hc with h | h | h <;> simp at h
    · simp at hc
  · intro i q s hc
    simp only [skipOutcome, List.mem_append] at hc
    rcases hc with hc | hc
    · rcases startEffects_kinds req (genItemID env req) _ hc with h | h | h <;> simp at h
    · simp at hc
  · intro i q hc
    simp only [skipOutcome, List.mem_append] at hc
    rcases hc with hc | hc
    · rcases startEffects_kinds req (genItemID env req) _ hc with h | h | h <;> simp at h
    · simp at hc

/-- Witness for C1 at the concrete fixture: the matching file short
circuits everything. -/
theorem downloadTrack_isrc_dedup_skips_witness :
    (DownloadTrack envIsrcHit reqIsrcHit).resp.success = true ∧
    (DownloadTrack envIsrcHit reqIsrcHit).resp.alreadyExists = true ∧
    (DownloadTrack envIsrcHit reqIsrcHit).resp.file = "/out/existing.flac" ∧
    Effect.skipItem "item-1" "/out/existing.flac" ∈ (DownloadTrack envIsrcHit reqIsrcHit).trace ∧
    Effect.serviceDownload (ServiceCall.qobuzByISRC "USUM71703861" "LOSSLESS")
      ∉ (DownloadTrack envIsrcHit reqIsrcHit).trace := by
  have h := downloadTrack_isrc_dedup_skips envIsrcHit reqIsrcHit "/out/existing.flac"
      (by decide) rfl
  exact ⟨h.1, h.2.1, h.2.2.1, h.2.2.2.2.1, h.2.2.2.2.2.1 _⟩

/-- Counterexample to claim C2: a zero-byte file sits at the expected
path with unreadable tag metadata, yet DownloadTrack does not delete it
(the path check demands more than 100 KiB before judging corruption); the
item still proceeds to a fresh download attempt. -/
theorem zero_byte_not_deleted_counterexample :
    envZeroByte.stat "/out/Song.flac" = some 0 ∧
    isrcInvalid (envZeroByte.readISRCFromFile "/out/Song.flac") = true ∧
    expectedPath envZeroByte (defaultedReq envZeroByte reqZeroByte) = "/out/Song.flac" ∧
    Effect.removeFile "/out/Song.flac" ∉ (DownloadTrack envZeroByte reqZeroByte).trace ∧
    Effect.serviceDownload (ServiceCall.qobuzByISRC "USX17607839" "LOSSLESS")
      ∈ (DownloadTrack envZeroByte reqZeroByte).trace := by
  decide

/-- Claim C2 as amended: the self-healing deletion applies exactly to an
existing file larger than 100 KiB whose embedded identifier is missing or
invalid (that file is removed and the service download still runs); a
smaller file at the expected path, in particular a zero-byte one, makes
the path check fall through without deletion and without skipping, so the
item also proceeds to a fresh download attempt. -/
theorem path_dedup_selfheal_amended (env : Env) (req : DownloadRequest) :
    (∀ sz, req.trackName ≠ "" → req.artistName ≠ "" →
      env.stat (expectedPath env (defaultedReq env req)) = some sz → 100 * 1024 < sz →
      isrcInvalid (env.readISRCFromFile (expectedPath env (defaultedReq env req))) = true →
      pathCheck env (defaultedReq env req)
        = .removeCorrupt (expectedPath env (defaultedReq env req))) ∧
    (∀ sz, env.stat (expectedPath env (defaultedReq env req)) = some sz → sz ≤ 100 * 1024 →
      pathCheck env (defaultedReq env req) = .proceed) ∧
    (∀ p c, req.isrc ≠ "" →
      env.checkISRCExists (defaultedReq env req).outputDir req.isrc = none →
      pathCheck env (defaultedReq env req) = .removeCorrupt p →
      dispatchService (defaultedReq env req) = .ok c →
      Effect.removeFile p ∈ (DownloadTrack env req).trace ∧
      Effect.serviceDownload c ∈ (DownloadTrack env req).trace) := by
  refine ⟨?_, ?_, ?_⟩
  · intro sz ht ha hst hsz hinv
    have ht' : (defaultedReq env req).trackName ≠ "" := ht
    have ha' : (defaultedReq env req).artistName ≠ "" := ha
    unfold pathCheck
    rw [if_pos ⟨ht', ha'⟩, hst]
    simp only [gt_iff_lt, hsz, if_true]
    cases hr : env.readISRCFromFile (expectedPath env (defaultedReq env req)) with
    | error e => simp [hr]
    | ok s =>
      rw [hr] at hinv
      simp only [isrcInvalid, beq_iff_eq] at hinv
      simp [hr, hinv]
  · intro sz hst hsz
    unfold pathCheck
    by_cases hta : (defaultedReq env req).trackName ≠ "" ∧ (defaultedReq env req).artistName ≠ ""
    · rw [if_pos hta, hst]
      simp only [gt_iff_lt]
      rw [if_neg (by omega)]
    · rw [if_neg hta]
  · intro p c h1 h2 hpc hd
    have h3 : ∀ q, pathCheck env (defaultedReq env req) ≠ .skipExisting q := by
      intro q hq
      rw [hpc] at hq
      exact PathCheckResult.noConfusion hq
    rw [downloadTrack_service_eq env req h1 h2 h3, hpc]
    constructor
    · simp [corruptCleanupEffects]
    · rw [hd]
      unfold runServicePhase
      cases hrs : env.runService c with
      | mk fn er =>
        cases er with
        | none =>
          by_cases hex : strStartsWith fn "EXISTS:" = true <;> simp [hrs, hex]
        | some e => simp [hrs]

/-- Witness for the amended C2: the large tag-less fixture file is
removed and the download still runs. -/
theorem path_dedup_selfheal_amended_witness :
    pathCheck envCorrupt (defaultedReq envCorrupt reqZeroByte)
      = .removeCorrupt "/out/Song.flac" ∧
    Effect.removeFile "/out/Song.flac" ∈ (DownloadTrack envCorrupt reqZeroByte).trace ∧
    Effect.serviceDownload (ServiceCall.qobuzByISRC "USX17607839" "LOSSLESS")
      ∈ (DownloadTrack envCorrupt reqZeroByte).trace := by
  have h := path_dedup_selfheal_amended envCorrupt reqZeroByte
  have h1 := h.1 2000000 (by decide) (by decide) (by decide) (by norm_num) (by decide)
  have hpth : expectedPath envCorrupt (defaultedReq envCorrupt reqZeroByte)
      = "/out/Song.flac" := by decide
  rw [hpth] at h1
  have h3 := h.2.2 "/out/Song.flac" (ServiceCall.qobuzByISRC "USX17607839" "LOSSLESS")
      (by decide) rfl h1 rfl
  exact ⟨h1, h3.1, h3.2⟩

/-- Reduction of the service phase on a failed download that reported an
existing non-EXISTS file name. -/
theorem runServicePhase_fail_eq (env : Env) (i : String) (c : ServiceCall) (fn e : String)
    (h5 : env.runService c = (fn, some e))
    (h6 : fn ≠ "")
    (h7 : strStartsWith fn "EXISTS:" = false)
    (h8 : (env.stat fn).isSome = true) :
    runServicePhase env i (.ok c)
      = { resp := { success := false, message := "", file := ""
                    error := "Download failed: " ++ e, alreadyExists := false, itemID := i }
          goError := some e
          trace := [Effect.serviceDownload c, Effect.removeFile fn,
                    Effect.setDownloading false] } := by
  unfold runServicePhase
  simp only [h5]
  simp [h6, h7, h8]

/-- Claim C3: when the selected downloader fails after reporting an
output file name that exists on disk and is not an EXISTS: marker, the
partial file is removed and the call returns failure with the wrapped
error; the item is never completed. -/
theorem failed_download_cleanup (env : Env) (req : DownloadRequest)
    (c : ServiceCall) (fn e : String)
    (h1 : req.isrc ≠ "")
    (h2 : env.checkISRCExists (defaultedReq env req).outputDir req.isrc = none)
    (h3 : ∀ p, pathCheck env (defaultedReq env req) ≠ .skipExisting p)
    (h4 : dispatchService (defaultedReq env req) = .ok c)
    (h5 : env.runService c = (fn, some e))
    (h6 : fn ≠ "")
    (h7 : strStartsWith fn "EXISTS:" = false)
    (h8 : (env.stat fn).isSome = true) :
    (DownloadTrack env req).resp.success = false ∧
    (DownloadTrack env req).goError = some e ∧
    (DownloadTrack env req).resp.error = "Download failed: " ++ e ∧
    Effect.removeFile fn ∈ (DownloadTrack env req).trace ∧
    (∀ i q s, Effect.completeItem i q s ∉ (DownloadTrack env req).trace) := by
  rw [downloadTrack_service_eq env req h1 h2 h3, h4,
      runServicePhase_fail_eq env (genItemID env req) c fn e h5 h6 h7 h8]
  refine ⟨rfl, rfl, rfl, by simp, ?_⟩
  intro i q s hc
  simp only [List.mem_append] at hc
  rcases hc with (hc | hc) | hc
  · rcases startEffects_kinds req (genItemID env req) _ hc with h | h | h <;> simp at h
  · cases hpc : pathCheck env (defaultedReq env req) <;> simp [corruptCleanupEffects, hpc] at hc
  · simp at hc

/-- Witness for C3 at the concrete fixture: the reported partial file is
removed and the call fails. -/
theorem failed_download_cleanup_witness :
    (DownloadTrack envPartial reqPartial).resp.success = false ∧
    (DownloadTrack envPartial reqPartial).goError = some "connection reset" ∧
    Effect.removeFile "/out/partial.flac" ∈ (DownloadTrack envPartial reqPartial).trace := by
  have hnoskip : ∀ p, pathCheck envPartial (defaultedReq envPartial reqPartial)
      ≠ PathCheckResult.skipExisting p := by
    intro p hq
    have hh : pathCheck envPartial (defaultedReq envPartial reqPartial)
        = PathCheckResult.proceed := by decide
    rw [hh] at hq
    exact PathCheckResult.noConfusion hq
  have h := failed_download_cleanup envPartial reqPartial
      (ServiceCall.qobuzByISRC "GBUM72000001" "LOSSLESS") "/out/partial.flac" "connection reset"
      (by decide) rfl hnoskip rfl rfl (by decide) (by decide) rfl
  exact ⟨h.1, h.2.1, h.2.2.2.1⟩

/-- Counterexample to claim C8: a Qobuz request carrying a direct
service URL is not downloaded from that URL; the attempted call is the
ISRC download and no direct-URL fetch ever appears in the trace. -/
theorem qobuz_ignores_serviceURL_counterexample :
    reqQobuzURL.serviceURL = "https://tidal.com/track/42" ∧
    Effect.serviceDownload (ServiceCall.qobuzByISRC "USQ771500001" "LOSSLESS")
      ∈ (DownloadTrack envZeroByte reqQobuzURL).trace ∧
    ((DownloadTrack envZeroByte reqQobuzURL).trace.all
      (fun eff => !(isDirectURLDownload eff))) = true := by
  decide

/-- Claim C8 as amended: for the Amazon and Tidal branches a supplied
direct service URL selects the by-URL download and an absent one selects
the search path, which demands a Spotify id; the Qobuz branch always
downloads by ISRC, ignoring any supplied service URL; and whenever the
switch selects a call, that call is the only service download in the
trace. -/
theorem direct_url_dispatch_amended (r : DownloadRequest) :
    ((r.service = "amazon" ∨ r.service = "tidal") →
      (r.serviceURL ≠ "" →
        ∃ c, dispatchService r = .ok c ∧ usesDirectURL c = true ∧
          directURLOf c = some r.serviceURL) ∧
      (r.serviceURL = "" → r.spotifyID = "" → ∃ msg, dispatchService r = .error msg) ∧
      (r.serviceURL = "" → r.spotifyID ≠ "" →
        ∃ c, dispatchService r = .ok c ∧ usesDirectURL c = false)) ∧
    (r.service = "qobuz" →
      dispatchService r
        = .ok (.qobuzByISRC r.isrc (if r.audioFormat = "" then "6" else r.audioFormat))) ∧
    (∀ env req c, req.isrc ≠ "" →
      env.checkISRCExists (defaultedReq env req).outputDir req.isrc = none →
      (∀ p, pathCheck env (defaultedReq env req) ≠ .skipExisting p) →
      dispatchService (defaultedReq env req) = .ok c →
      Effect.serviceDownload c ∈ (DownloadTrack env req).trace ∧
      ∀ c2, c2 ≠ c → Effect.serviceDownload c2 ∉ (DownloadTrack env req).trace) := by
  refine ⟨?_, ?_, ?_⟩
  · intro hsvc
    refine ⟨?_, ?_, ?_⟩
    · intro hurl
      rcases hsvc with h | h
      · exact ⟨.amazonByURL r.serviceURL, by simp [dispatchService, h, hurl], rfl, rfl⟩
      · by_cases hapi : r.apiURL = "" ∨ r.apiURL = "auto"
        · exact ⟨.tidalByURLFallback r.serviceURL,
            by simp [dispatchService, h, hurl, hapi], rfl, rfl⟩
        · exact ⟨.tidalByURL r.apiURL r.serviceURL,
            by simp [dispatchService, h, hurl, hapi], rfl, rfl⟩
    · intro hurl hsid
      rcases hsvc with h | h
      · exact ⟨"Spotify ID is required for Amazon Music",
          by simp [dispatchService, h, hurl, hsid]⟩
      · by_cases hapi : r.apiURL = "" ∨ r.apiURL = "auto"
        · exact ⟨"Spotify ID is required for Tidal",
            by simp [dispatchService, h, hurl, hsid, hapi]⟩
        · exact ⟨"Spotify ID is required for Tidal",
            by simp [dispatchService, h, hurl, hsid, hapi]⟩
    · intro hurl hsid
      rcases hsvc with h | h
      · exact ⟨.amazonBySpotifyID r.spotifyID,
          by simp [dispatchService, h, hurl, hsid], rfl⟩
      · by_cases hapi : r.apiURL = "" ∨ r.apiURL = "auto"
        · exact ⟨.tidalSearchFallback r.spotifyID r.isrc,
            by simp [dispatchService, h, hurl, hsid, hapi], rfl⟩
        · exact ⟨.tidalSearch r.apiURL r.spotifyID r.isrc,
            by simp [dispatchService, h, hurl, hsid, hapi], rfl⟩
  · intro h
    by_cases ham : r.service = "amazon"
    · rw [h] at ham
      exact absurd ham (by decide)
    · by_cases htd : r.service = "tidal"
      · rw [h] at htd
        exact absurd htd (by decide)
      · simp [dispatchService, ham, htd, h]
  · intro env req c h1 h2 h3 h4
    rw [downloadTrack_service_eq env req h1 h2 h3, h4]
    constructor
    · unfold runServicePhase
      cases hrs : env.runService c with
      | mk fn er =>
        cases er with
        | none =>
          by_cases hex : strStartsWith fn "EXISTS:" = true <;> simp [hrs, hex]
        | some e => simp [hrs]
    · intro c2 hne hmem
      simp only [List.mem_append] at hmem
      rcases hmem with (hc | hc) | hc
      · rcases startEffects_kinds req (genItemID env req) _ hc with h | h | h <;> simp at h
      · cases hpc : pathCheck env (defaultedReq env req) <;>
          simp [corruptCleanupEffects, hpc] at hc
      · unfold runServicePhase at hc
        cases hrs : env.runService c with
        | mk fn er =>
          simp only [hrs] at hc
          cases er with
          | none =>
            by_cases hex : strStartsWith fn "EXISTS:" = true <;>
              simp [hex] at hc <;> exact hne hc
          | some e =>
            by_cases hcln : fn ≠ "" ∧ strStartsWith fn "EXISTS:" = false ∧
                (env.stat fn).isSome = true <;>
              simp [hcln] at hc <;> exact hne hc

/-- Witness for the amended C8: the Tidal fixture request with a direct
URL dispatches to a by-URL call carrying exactly that URL. -/
theorem direct_url_dispatch_amended_witness :
    ∃ c, dispatchService reqTidalURL = .ok c ∧ usesDirectURL c = true ∧
      directURLOf c = some reqTidalURL.serviceURL := by
  have h := (direct_url_dispatch_amended reqTidalURL).1 (Or.inr rfl)
  exact h.1 (by decide)

/-- Reduction of DownloadTrack when the path-based dedup check skips. -/
theorem downloadTrack_pathSkip_eq (env : Env) (req : DownloadRequest) (p : String)
    (h1 : req.isrc ≠ "")
    (h2 : env.checkISRCExists (defaultedReq env req).outputDir req.isrc = none)
    (h3 : pathCheck env (defaultedReq env req) = .skipExisting p) :
    DownloadTrack env req
      = skipOutcome (genItemID env req) p "File already exists"
          (startEffects req (genItemID env req)) := by
  unfold DownloadTrack
  rw [if_neg h1]
  simp only [h2, h3]

/-- A single DownloadTrack call never fails the queue item: the failure
transition is left to the caller that drives the fallback. -/
theorem downloadTrack_no_failItem (env : Env) (req : DownloadRequest) (i m : String) :
    Effect.failItem i m ∉ (DownloadTrack env req).trace := by
  intro hmem
  by_cases h0 : req.isrc = ""
  · unfold DownloadTrack at hmem
    simp [h0] at hmem
  · cases hI : env.checkISRCExists (defaultedReq env req).outputDir req.isrc with
    | some f =>
      rw [downloadTrack_isrcHit_eq env req f h0 hI] at hmem
      simp only [skipOutcome, List.mem_append] at hmem
      rcases hmem with hc | hc
      · rcases startEffects_kinds req _ _ hc with h | h | h <;> simp at h
      · simp at hc
    | none =>
      by_cases hskip : ∃ p, pathCheck env (defaultedReq env req) = .skipExisting p
      · obtain ⟨p, hp⟩ := hskip
        rw [downloadTrack_pathSkip_eq env req p h0 hI hp] at hmem
        simp only [skipOutcome, List.mem_append] at hmem
        rcases hmem with hc | hc
        · rcases startEffects_kinds req _ _ hc with h | h | h <;> simp at h
        · simp at hc
      · push_neg at hskip
        rw [downloadTrack_service_eq env req h0 hI hskip] at hmem
        simp only [List.mem_append] at hmem
        rcases hmem with (hc | hc) | hc
        · rcases startEffects_kinds req _ _ hc with h | h | h <;> simp at h
        · cases hpc : pathCheck env (defaultedReq env req) <;>
            simp [corruptCleanupEffects, hpc] at hc
        · cases hd : dispatchService (defaultedReq env req) with
          | error msg =>
            rw [hd] at hc
            simp [runServicePhase] at hc
          | ok c =>
            rw [hd] at hc
            unfold runServicePhase at hc
            cases hrs : env.runService c with
            | mk fn er =>
              simp only [hrs] at hc
              cases er with
              | none =>
                by_cases hex : strStartsWith fn "EXISTS:" = true <;> simp [hex] at hc
              | some e =>
                by_cases hcln : fn ≠ "" ∧ strStartsWith fn "EXISTS:" = false ∧
                    (env.stat fn).isSome = true <;> simp [hcln] at hc

/-- The trace of one DownloadTrack call filters to no queue failures. -/
theorem downloadTrack_filter_fail (env : Env) (req : DownloadRequest) :
    ((DownloadTrack env req).trace.filter isFailEff) = [] := by
  rw [List.filter_eq_nil_iff]
  intro a ha
  cases a with
  | failItem i m => exact absurd ha (downloadTrack_no_failItem env req i m)
  | addToQueue i => simp [isFailEff]
  | setDownloading b => simp [isFailEff]
  | startItem i => simp [isFailEff]
  | skipItem i p => simp [isFailEff]
  | completeItem i p s => simp [isFailEff]
  | removeFile p => simp [isFailEff]
  | serviceDownload c => simp [isFailEff]

/-- Worker lemma for C4: with every remaining service failing, the
driver returns the aggregated error and the only queue-failure effect in
the whole trace is the single final one. -/
theorem downloadWithFallbackAux_exhaust (env : Env) (req : DownloadRequest) :
    ∀ (services errs : List String),
    (∀ s ∈ services, ((DownloadTrack env { req with service := s }).goError).isSome = true) →
    (downloadWithFallbackAux env req services errs).1
      = .error (aggregateFailureMessage (errs.reverse ++ collectErrors env req services)) ∧
    ((downloadWithFallbackAux env req services errs).2.filter isFailEff)
      = [Effect.failItem req.itemID
          (aggregateFailureMessage (errs.reverse ++ collectErrors env req services))] := by
  intro services
  induction services with
  | nil =>
    intro errs hall
    simp [downloadWithFallbackAux, collectErrors, isFailEff]
  | cons s rest ih =>
    intro errs hall
    have hs := hall s (by simp)
    obtain ⟨e, he⟩ := Option.isSome_iff_exists.mp hs
    have hcol : collectErrors env req (s :: rest) = e :: collectErrors env req rest := by
      simp [collectErrors, he]
    have ihx := ih (e :: errs) (fun t ht => hall t (by simp [ht]))
    unfold downloadWithFallbackAux
    simp only [he]
    rw [hcol]
    have hre : (e :: errs).reverse = errs.reverse ++ [e] := by simp
    rw [hre] at ihx
    have hassoc : errs.reverse ++ [e] ++ collectErrors env req rest
        = errs.reverse ++ e :: collectErrors env req rest := by simp
    rw [hassoc] at ihx
    refine ⟨ihx.1, ?_⟩
    rw [List.filter_append, downloadTrack_filter_fail, List.nil_append, ihx.2]

/-- Claim C4: when every configured service fails, the fallback driver
reports one aggregated failure, the queue item receives exactly one
failure transition carrying that aggregated message, and no per-service
error is surfaced on its own (spec-modelled driver over the embedded
DownloadTrack, which itself never fails the item). -/
theorem aggregate_failure_single (env : Env) (req : DownloadRequest)
    (services : List String)
    (hall : ∀ s ∈ services,
      ((DownloadTrack env { req with service := s }).goError).isSome = true) :
    (downloadWithFallback env req services).1
      = .error (aggregateFailureMessage (collectErrors env req services)) ∧
    ((downloadWithFallback env req services).2.filter isFailEff)
      = [Effect.failItem req.itemID
          (aggregateFailureMessage (collectErrors env req services))] := by
  have h := downloadWithFallbackAux_exhaust env req services [] hall
  simpa [downloadWithFallback] using h

/-- Witness for C4 at the concrete fixtures: Tidal rejects the request
for lack of a Spotify id, Qobuz fails over the network, and one
aggregated failure reaches the item. -/
theorem aggregate_failure_single_witness :
    (downloadWithFallback envZeroByte reqFallback ["tidal", "qobuz"]).1
      = .error (aggregateFailureMessage
          (collectErrors envZeroByte reqFallback ["tidal", "qobuz"])) ∧
    ((downloadWithFallback envZeroByte reqFallback ["tidal", "qobuz"]).2.filter isFailEff)
      = [Effect.failItem "item-4"
          (aggregateFailureMessage
            (collectErrors envZeroByte reqFallback ["tidal", "qobuz"]))] :=
  aggregate_failure_single envZeroByte reqFallback ["tidal", "qobuz"] (by decide)

/-- One coverStep call preserves the resolution invariant, raising the
bound to just above the priority of the consulted source. -/
theorem coverStep_inv (env : CoverEnv) (dbPath : String) (m : Metadata)
    (g : Prop) [Decidable g] (src : CoverSource) (b : Nat)
    (acc : String × List CoverSource)
    (hb : b ≤ priorityIdx src)
    (hInv : CoverInv env dbPath m b acc) :
    CoverInv env dbPath m (priorityIdx src + 1)
      (coverStep g (yieldOf env dbPath m src) src acc) := by
  obtain ⟨hPw, hBnd, hY⟩ := hInv
  unfold coverStep
  by_cases hcond : acc.1 = "" ∧ g
  · rw [if_pos hcond]
    refine ⟨?_, ?_, ?_⟩
    · apply List.pairwise_append.mpr
      refine ⟨hPw, List.pairwise_singleton _ _, ?_⟩
      intro a ha c hc
      simp only [List.mem_singleton] at hc
      subst hc
      exact lt_of_lt_of_le (hBnd a ha) hb
    · intro s hs
      rcases List.mem_append.mp hs with h | h
      · exact lt_of_lt_of_le (hBnd s h) (Nat.le_succ_of_le hb)
      · simp only [List.mem_singleton] at h
        subst h
        omega
    · intro s hs hy
      rcases List.mem_append.mp hs with h | h
      · exfalso
        have hacc := (hY s h hy).1
        rw [hcond.1] at hacc
        exact hy hacc.symm
      · simp only [List.mem_singleton] at h
        subst h
        refine ⟨rfl, ?_⟩
        intro t ht
        rcases List.mem_append.mp ht with h2 | h2
        · exact le_of_lt (lt_of_lt_of_le (hBnd t h2) hb)
        · simp only [List.mem_singleton] at h2
          subst h2
          exact le_refl _
  · rw [if_neg hcond]
    exact ⟨hPw, fun s hs => lt_of_lt_of_le (hBnd s hs) (Nat.le_succ_of_le hb), hY⟩

/-- The full resolution walk satisfies the invariant at bound six. -/
theorem resolveCoverURL_inv (env : CoverEnv) (dbPath : String) (m : Metadata) :
    CoverInv env dbPath m 6 (resolveCoverURL env dbPath m) := by
  have h0 : CoverInv env dbPath m 0 (("", []) : String × List CoverSource) := by
    refine ⟨List.Pairwise.nil, ?_, ?_⟩ <;> intro s hs <;> simp at hs
  have h1 := coverStep_inv env dbPath m (dbPath ≠ "" ∧ m.album ≠ "") .dbAlbum 0 _
      (by simp [priorityIdx]) h0
  have h2 := coverStep_inv env dbPath m (dbPath ≠ "" ∧ m.title ≠ "" ∧ m.artist ≠ "")
      .dbTrack 1 _ (by simp [priorityIdx]) h1
  have h3 := coverStep_inv env dbPath m True .itunes 2 _ (by simp [priorityIdx]) h2
  have h4 := coverStep_inv env dbPath m True .deezer 3 _ (by simp [priorityIdx]) h3
  have h5 := coverStep_inv env dbPath m True .spotify 4 _ (by simp [priorityIdx]) h4
  have h6 := coverStep_inv env dbPath m True .musicbrainz 5 _ (by simp [priorityIdx]) h5
  exact h6

/-- Claim C5: the repair worker walks its sources strictly in priority
order (database by album, database by track and artist, iTunes, Deezer,
Spotify, MusicBrainz); whenever an invoked source yields a non-empty
URL, that URL is the result and no later-priority source is invoked; a
non-empty result is then downloaded to the sibling .jpg path next to the
audio file. -/
theorem cover_priority_short_circuit (env : CoverEnv) (dbPath : String) (m : Metadata) :
    List.Pairwise (fun a b => priorityIdx a < priorityIdx b)
      (resolveCoverURL env dbPath m).2 ∧
    (∀ s ∈ (resolveCoverURL env dbPath m).2, yieldOf env dbPath m s ≠ "" →
      (resolveCoverURL env dbPath m).1 = yieldOf env dbPath m s ∧
      ∀ t ∈ (resolveCoverURL env dbPath m).2, priorityIdx t ≤ priorityIdx s) ∧
    (∀ audioPath, (resolveCoverURL env dbPath m).1 ≠ "" →
      repairCoverAction env dbPath m audioPath
        = some ((resolveCoverURL env dbPath m).1,
            trimSuffixStr audioPath (goExt audioPath) ++ ".jpg")) := by
  have hInv := resolveCoverURL_inv env dbPath m
  refine ⟨hInv.1, hInv.2.2, ?_⟩
  intro audioPath hurl
  simp [repairCoverAction, coverDownloadPath, hurl]

/-- Witness for C5 at the concrete environment where only the database
steps fail: iTunes is the last source invoked and supplies the URL. -/
theorem cover_priority_short_circuit_witness :
    (resolveCoverURL coverEnvITunes "" { title := "T", artist := "A", album := "", albumArtist := "" }).1
      = "https://img.example/cover.jpg" ∧
    (resolveCoverURL coverEnvITunes "" { title := "T", artist := "A", album := "", albumArtist := "" }).2
      = [CoverSource.itunes] ∧
    repairCoverAction coverEnvITunes "" { title := "T", artist := "A", album := "", albumArtist := "" }
        "/lib/a.flac"
      = some ("https://img.example/cover.jpg", "/lib/a.jpg") := by
  have h := cover_priority_short_circuit coverEnvITunes ""
      { title := "T", artist := "A", album := "", albumArtist := "" }
  refine ⟨?_, ?_, ?_⟩
  · decide
  · decide
  · have h3 := h.2.2 "/lib/a.flac" (by decide)
    rw [h3]
    decide

/-- Appending a non-empty suffix never yields the empty string. -/
theorem append_suffix_ne_empty (s t : String) (ht : t.data ≠ []) : s ++ t ≠ "" := by
  cases s with
  | mk sd =>
    cases t with
    | mk td =>
      intro h
      have hd : sd ++ td = ([] : List Char) := congrArg String.data h
      rcases List.append_eq_nil.mp hd with ⟨h1, h2⟩
      exact ht h2

/-- Field values of one per-track verification: cover presence mirrors
the two sibling stat checks and, per enabled flag, presence and absence
are complementary. -/
theorem verifyTrack_fields (statOK : String → Bool) (cc cl : Bool) (p : String) :
    (verifyTrack statOK cc cl p).hasCover
      = (cc && (statOK (trimSuffixStr p (goExt p) ++ ".jpg")
              || statOK (trimSuffixStr p (goExt p) ++ ".png"))) ∧
    (verifyTrack statOK cc cl p).missingCover
      = (cc && !(statOK (trimSuffixStr p (goExt p) ++ ".jpg")
              || statOK (trimSuffixStr p (goExt p) ++ ".png"))) ∧
    (verifyTrack statOK cc cl p).hasLyrics
      = (cl && (statOK (trimSuffixStr p (goExt p) ++ ".lrc")
              || statOK (trimSuffixStr p (goExt p) ++ ".txt"))) ∧
    (verifyTrack statOK cc cl p).missingLyrics
      = (cl && !(statOK (trimSuffixStr p (goExt p) ++ ".lrc")
              || statOK (trimSuffixStr p (goExt p) ++ ".txt"))) := by
  have hne1 : trimSuffixStr p (goExt p) ++ ".jpg" ≠ "" :=
    append_suffix_ne_empty _ _ (by decide)
  have hne2 : trimSuffixStr p (goExt p) ++ ".png" ≠ "" :=
    append_suffix_ne_empty _ _ (by decide)
  have hne3 : trimSuffixStr p (goExt p) ++ ".lrc" ≠ "" :=
    append_suffix_ne_empty _ _ (by decide)
  have hne4 : trimSuffixStr p (goExt p) ++ ".txt" ≠ "" :=
    append_suffix_ne_empty _ _ (by decide)
  unfold verifyTrack
  cases cc <;> cases cl <;>
    by_cases hj : statOK (trimSuffixStr p (goExt p) ++ ".jpg") = true <;>
    by_cases hp : statOK (trimSuffixStr p (goExt p) ++ ".png") = true <;>
    by_cases hl : statOK (trimSuffixStr p (goExt p) ++ ".lrc") = true <;>
    by_cases ht : statOK (trimSuffixStr p (goExt p) ++ ".txt") = true <;>
    simp_all

/-- The scan loop preserves the total and adds one cover mark and one
lyrics mark per file when the respective flag is on. -/
theorem scanFold_counters (statOK : String → Bool) (cc cl : Bool) :
    ∀ (l : List String) (r : LibResponse),
    (l.foldl (scanStep statOK cc cl) r).totalTracks = r.totalTracks ∧
    (cc = true →
      (l.foldl (scanStep statOK cc cl) r).tracksWithCover
        + (l.foldl (scanStep statOK cc cl) r).missingCovers
        = r.tracksWithCover + r.missingCovers + l.length) ∧
    (cl = true →
      (l.foldl (scanStep statOK cc cl) r).tracksWithLyrics
        + (l.foldl (scanStep statOK cc cl) r).missingLyrics
        = r.tracksWithLyrics + r.missingLyrics + l.length) := by
  intro l
  induction l with
  | nil => intro r; simp
  | cons p rest ih =>
    intro r
    have hf := verifyTrack_fields statOK cc cl p
    have hstep := ih (scanStep statOK cc cl r p)
    refine ⟨?_, ?_, ?_⟩
    · rw [List.foldl_cons, hstep.1]
      simp [scanStep]
    · intro hcc
      rw [List.foldl_cons, hstep.2.1 hcc]
      subst hcc
      simp only [scanStep, hf.1, hf.2.1]
      cases statOK (trimSuffixStr p (goExt p) ++ ".jpg")
          || statOK (trimSuffixStr p (goExt p) ++ ".png") <;>
        simp [List.length_cons] <;> omega
    · intro hcl
      rw [List.foldl_cons, hstep.2.2 hcl]
      subst hcl
      simp only [scanStep, hf.2.2.1, hf.2.2.2]
      cases statOK (trimSuffixStr p (goExt p) ++ ".lrc")
          || statOK (trimSuffixStr p (goExt p) ++ ".txt") <;>
        simp [List.length_cons] <;> omega

/-- Claim C7: the scan enumerates exactly the non-directory entries with
a lower-cased .mp3, .flac or .m4a extension; TotalTracks is their count;
with cover checking on, every enumerated file lands in exactly one of
the with-cover or missing-cover counters, and symmetrically for lyrics;
and a cover counts as present exactly when a sibling .jpg or .png with
the same base name exists. -/
theorem verifyLibrary_scan_partition (fs : List FSEntry) (statOK : String → Bool)
    (cc cl : Bool) :
    (∀ p, p ∈ walkAudioFiles fs
      ↔ ∃ e ∈ fs, e.isDir = false ∧ isAudioPath e.path = true ∧ e.path = p) ∧
    (VerifyLibraryScan fs statOK cc cl).totalTracks = (walkAudioFiles fs).length ∧
    (cc = true →
      (VerifyLibraryScan fs statOK cc cl).tracksWithCover
        + (VerifyLibraryScan fs statOK cc cl).missingCovers
        = (VerifyLibraryScan fs statOK cc cl).totalTracks) ∧
    (cl = true →
      (VerifyLibraryScan fs statOK cc cl).tracksWithLyrics
        + (VerifyLibraryScan fs statOK cc cl).missingLyrics
        = (VerifyLibraryScan fs statOK cc cl).totalTracks) ∧
    (∀ p, (verifyTrack statOK true cl p).hasCover
      = (statOK (trimSuffixStr p (goExt p) ++ ".jpg")
          || statOK (trimSuffixStr p (goExt p) ++ ".png"))) := by
  have hfold := scanFold_counters statOK cc cl (walkAudioFiles fs)
  refine ⟨?_, ?_, ?_, ?_, ?_⟩
  · intro p
    simp only [walkAudioFiles, List.mem_map, List.mem_filter]
    constructor
    · rintro ⟨e, ⟨he, hcond⟩, rfl⟩
      simp only [Bool.and_eq_true, Bool.not_eq_true'] at hcond
      exact ⟨e, he, hcond.1, hcond.2, rfl⟩
    · rintro ⟨e, he, hdir, haud, rfl⟩
      exact ⟨e, ⟨he, by simp [hdir, haud]⟩, rfl⟩
  · unfold VerifyLibraryScan
    rw [(hfold _).1]
  · intro hcc
    unfold VerifyLibraryScan
    rw [(hfold _).2.1 hcc, (hfold _).1]
    simp
  · intro hcl
    unfold VerifyLibraryScan
    rw [(hfold _).2.2 hcl, (hfold _).1]
    simp
  · intro p
    exact (verifyTrack_fields statOK true cl p).1.trans (by simp)

/-- Witness for C7 on the two-track fixture: two audio files found, one
cover present, one missing, and the partition sums hold. -/
theorem verifyLibrary_scan_partition_witness :
    (VerifyLibraryScan fsTwoTracks statTwoTracks true true).totalTracks = 2 ∧
    (VerifyLibraryScan fsTwoTracks statTwoTracks true true).tracksWithCover = 1 ∧
    (VerifyLibraryScan fsTwoTracks statTwoTracks true true).missingCovers = 1 ∧
    (VerifyLibraryScan fsTwoTracks statTwoTracks true true).tracksWithCover
      + (VerifyLibraryScan fsTwoTracks statTwoTracks true true).missingCovers
      = (VerifyLibraryScan fsTwoTracks statTwoTracks true true).totalTracks ∧
    "/lib/b.mp3" ∈ walkAudioFiles fsTwoTracks ∧
    "/lib/notes.txt" ∉ walkAudioFiles fsTwoTracks := by
  have h := verifyLibrary_scan_partition fsTwoTracks statTwoTracks true true
  refine ⟨by decide, by decide, by decide, h.2.2.1 rfl, ?_, by decide⟩
  exact (h.1 "/lib/b.mp3").mpr ⟨{ path := "/lib/b.mp3", isDir := false },
    by decide, rfl, by decide, rfl⟩

end SpotiFLAC
